import Mathlib

/-!
Verification development for the `mariodelgado/ui` pattern-validation
script (`scripts/validate-patterns.mts`) and the spring-configuration
library (`apps/v4/lib/springs.ts`).

The TypeScript code is shallowly embedded: file contents are `String`s,
JavaScript `String.prototype.includes` becomes substring containment over
the character list, `RegExp.prototype.test` for the handful of concrete
regexes used by the script becomes explicit matchers (all regexes in the
script are alternations of literals optionally separated by `.*`, where
`.` does not match a line terminator), and the filesystem seen by the
walker becomes an inductive tree carrying a `readable` flag per directory
(modelling `readdirSync` success/failure).
-/

namespace ValidatePatterns

/-- The pattern `pat` occurs as a contiguous sublist of `l` (checked at
every position). -/
def occursIn (pat : List Char) : List Char → Bool
  | [] => pat.isEmpty
  | c :: rest => pat.isPrefixOf (c :: rest) || occursIn pat rest

/-- JavaScript `content.includes(pat)`: `pat` occurs as a contiguous
substring of `s`. -/
def strContains (s pat : String) : Bool :=
  occursIn pat.data s.data

/-- JavaScript `s.endsWith(pat)`. -/
def strEndsWith (s pat : String) : Bool :=
  pat.data.reverse.isPrefixOf s.data.reverse

/-- JavaScript line terminators, which `.` in a regex does not match:
LF, CR, U+2028, U+2029. -/
def isLineTerminator (c : Char) : Bool :=
  c = '\n' || c = '\r' || c.toNat = 8232 || c.toNat = 8233

/-- Split a character list into its maximal line-terminator-free segments. -/
def splitLinesAux : List Char → List Char → List (List Char)
  | acc, [] => [acc.reverse]
  | acc, c :: rest =>
    if isLineTerminator c then acc.reverse :: splitLinesAux [] rest
    else splitLinesAux (c :: acc) rest

/-- The line-terminator-free segments of a string. -/
def splitLines (s : String) : List (List Char) :=
  splitLinesAux [] s.data

/-- Drop everything up to and including the first occurrence of `p` in `s`;
`none` when `p` does not occur. -/
def dropAfterFirst (p : List Char) : List Char → Option (List Char)
  | [] => if p.isEmpty then some [] else none
  | c :: rest =>
    if p.isPrefixOf (c :: rest) then some ((c :: rest).drop p.length)
    else dropAfterFirst p rest

/-- The literal pieces occur in order, pairwise disjoint, inside `s`
(the matching semantics of the regex `p₀.*p₁.*⋯.*pₙ` within one line,
via the standard greedy leftmost argument). -/
def piecesInOrder : List (List Char) → List Char → Bool
  | [], _ => true
  | p :: ps, s =>
    match dropAfterFirst p s with
    | none => false
    | some rest => piecesInOrder ps rest

/-- JavaScript `/p₀.*p₁.*⋯.*pₙ/.test(content)` for literal pieces `pᵢ`
containing no line terminator: some line of `content` contains the pieces
in order. -/
def jsTestSeq (pieces : List String) (content : String) : Bool :=
  (splitLines content).any (piecesInOrder (pieces.map String.data))

/-- JavaScript `s.replace(pat, "")` for a plain-string pattern: remove the
first occurrence of `pat`, leaving `s` unchanged when `pat` is absent. -/
def replaceFirstAux (pat : List Char) : List Char → List Char
  | [] => []
  | c :: rest =>
    if pat.isPrefixOf (c :: rest) then (c :: rest).drop pat.length
    else c :: replaceFirstAux pat rest

/-- JavaScript `s.replace(pat, "")` on strings. -/
def replaceFirst (s pat : String) : String :=
  String.mk (replaceFirstAux pat.data s.data)

/-- Severity of a pattern check: `"error"` (blocking) or `"warning"`
(advisory). -/
inductive Severity where
  | error : Severity
  | warning : Severity
deriving DecidableEq, BEq, Repr

/-- The `PatternViolation` record of the script (the optional `line` field
is never set by any check and is omitted). -/
structure PatternViolation where
  file : String
  component : String
  pattern : String
  message : String
  severity : Severity
deriving DecidableEq, Repr

/-- The `PatternCheck` record: a named predicate over (content, file name)
with a fixed severity (the unused `autoFix` field is omitted). -/
structure PatternCheck where
  name : String
  check : String → String → Bool
  severity : Severity
  description : String

/-- File-name fragments marking interactive components. -/
def INTERACTIVE_ELEMENTS : List String :=
  ["button", "input", "select", "textarea", "checkbox", "radio",
   "switch", "slider", "toggle"]

/-- File-name fragments marking form components. -/
def FORM_ELEMENTS : List String := ["input", "select", "textarea"]

/-- The single-quote character, written by code point. -/
def singleQuote : Char := Char.ofNat 39

/-- One alternative of the import regex
`/from ['"]class-variance-authority['"]/` with concrete quote characters. -/
def cvaImportLit (q1 q2 : Char) : List Char :=
  "from ".data ++ [q1] ++ "class-variance-authority".data ++ [q2]

/-- `/from ['"]class-variance-authority['"]/.test(content)`. -/
def hasCvaImport (content : String) : Bool :=
  [singleQuote, '"'].any fun q1 =>
    [singleQuote, '"'].any fun q2 =>
      occursIn (cvaImportLit q1 q2) content.data

/-- `/variant[:?]/.test(content) || /size[:?]/.test(content)`. -/
def hasVariantProps (content : String) : Bool :=
  (strContains content "variant:" || strContains content "variant?") ||
    (strContains content "size:" || strContains content "size?")

/-- `/function|const.*=.*=>/.test(content)`. -/
def hasFunctionMarker (content : String) : Bool :=
  strContains content "function" || jsTestSeq ["const", "=", "=>"] content

/-- `/interface.*Props/.test(content) || /type.*Props/.test(content)`. -/
def hasPropsType (content : String) : Bool :=
  jsTestSeq ["interface", "Props"] content ||
    jsTestSeq ["type", "Props"] content

/-- Whether the file name contains any interactive-element fragment. -/
def isInteractiveFile (file : String) : Bool :=
  INTERACTIVE_ELEMENTS.any fun el => strContains file el

/-- Whether the file name contains any form-element fragment. -/
def isFormElementFile (file : String) : Bool :=
  FORM_ELEMENTS.any fun el => strContains file el

/-- The `data-slot` check of `PATTERN_CHECKS`. -/
def dataSlotCheck (content file : String) : Bool :=
  if !(strContains content "export") then true
  else if !(isInteractiveFile file) then true
  else strContains content "data-slot="

/-- The `focus-visible-ring` check of `PATTERN_CHECKS`. -/
def focusVisibleRingCheck (content file : String) : Bool :=
  if !(isInteractiveFile file) then true
  else strContains content "focus-visible:ring" ||
    strContains content "focus-visible:border-ring"

/-- The `aria-invalid-styling` check of `PATTERN_CHECKS`. -/
def ariaInvalidCheck (content file : String) : Bool :=
  if !(isFormElementFile file) then true
  else strContains content "aria-invalid:"

/-- The `cva-usage` check of `PATTERN_CHECKS`. -/
def cvaUsageCheck (content _file : String) : Bool :=
  if !(hasVariantProps content) then true
  else hasCvaImport content && strContains content "cva("

/-- The `typescript-types` check of `PATTERN_CHECKS`. -/
def typescriptTypesCheck (content file : String) : Bool :=
  if !(strEndsWith file ".tsx") then true
  else if !(hasFunctionMarker content) then true
  else hasPropsType content

/-- The ordered rule table of the script. -/
def PATTERN_CHECKS : List PatternCheck :=
  [{ name := "data-slot", check := dataSlotCheck, severity := .error,
     description := "All components should have data-slot attribute" },
   { name := "focus-visible-ring", check := focusVisibleRingCheck,
     severity := .error,
     description := "Interactive elements should have focus-visible rings" },
   { name := "aria-invalid-styling", check := ariaInvalidCheck,
     severity := .warning,
     description := "Form elements should have aria-invalid styling" },
   { name := "cva-usage", check := cvaUsageCheck, severity := .warning,
     description := "Components with variants should use CVA" },
   { name := "typescript-types", check := typescriptTypesCheck,
     severity := .error,
     description := "Components should have proper TypeScript types" }]

/-- The ordered entry list of one directory, as seen by the walker (a
first-child/next-sibling encoding, so that all recursion stays
structural): each entry is a file with its name and text, or a
subdirectory whose `readable` flag records whether `readdirSync` succeeds
on it, with its own entries. -/
inductive Fs where
  | nilFs : Fs
  | fileE (name content : String) (rest : Fs) : Fs
  | dirE (name : String) (readable : Bool) (children : Fs) (rest : Fs) : Fs
deriving DecidableEq, Repr

/-- Concatenation of two directory-entry sequences. -/
def Fs.append : Fs → Fs → Fs
  | .nilFs, ys => ys
  | .fileE n c rest, ys => .fileE n c (rest.append ys)
  | .dirE n r ch rest, ys => .dirE n r ch (rest.append ys)

/-- A directory handed to the walker: whether `readdirSync` succeeds on
it, and its entries in directory order. -/
structure FsDir where
  readable : Bool
  entries : Fs
deriving DecidableEq, Repr

/-- The body of the walker loop of `findComponentFiles`: each entry, in
directory order, contributes its recursively collected `.tsx` files (a
subdirectory whose read fails contributes nothing — the walker's
`try`/`catch` logs the error and keeps the files gathered so far), or
itself when it is a file named `*.tsx`.  Results are (base name, content)
pairs in traversal order. -/
def findFilesInEntries : Fs → List (String × String)
  | .nilFs => []
  | .fileE n c rest =>
    (if strEndsWith n ".tsx" then [(n, c)] else []) ++ findFilesInEntries rest
  | .dirE _ readable children rest =>
    (if readable then findFilesInEntries children else []) ++
      findFilesInEntries rest

/-- The walker `findComponentFiles(dir)`: on an unreadable directory
`readdirSync` throws, the error is logged and the empty list is returned;
otherwise the loop body above runs over the entries. -/
def findComponentFiles (d : FsDir) : List (String × String) :=
  if d.readable then findFilesInEntries d.entries else []

/-- The check loop of `validateFile`: walk the rule table in order and
push one violation per failing check. -/
def runChecks (content fileName componentName : String) :
    List PatternCheck → List PatternViolation
  | [] => []
  | c :: rest =>
    if c.check content fileName then runChecks content fileName componentName rest
    else
      { file := fileName, component := componentName, pattern := c.name,
        message := c.description, severity := c.severity } ::
        runChecks content fileName componentName rest

/-- `validateFile`: `componentName = fileName.replace(".tsx", "")`; files
whose text lacks the substring `"export"` are skipped with no violations;
otherwise every check of `PATTERN_CHECKS` runs in table order.  (The
script's per-file `try`/`catch` only guards the filesystem read, which the
embedding replaces by the supplied `content`.) -/
def validateFile (fileName content : String) : List PatternViolation :=
  if !(strContains content "export") then []
  else runChecks content fileName (replaceFirst fileName ".tsx") PATTERN_CHECKS

/-- The accumulation loop of `main`:
`allViolations.push(...validateFile(file))` over the discovered files. -/
def runValidator (files : List (String × String)) : List PatternViolation :=
  files.foldl (fun acc fc => acc ++ validateFile fc.1 fc.2) []

/-- Number of violations with severity `"error"` (the `errors` filter of
`main`). -/
def blockingCount (vs : List PatternViolation) : Nat :=
  (vs.filter fun v => v.severity == Severity.error).length

/-- Number of violations with severity `"warning"` (the `warnings` filter
of `main`). -/
def advisoryCount (vs : List PatternViolation) : Nat :=
  (vs.filter fun v => v.severity == Severity.warning).length

/-- The exit-code decision at the end of `main`: `0` when there are no
violations at all, else `1` when any error-severity violation exists, else
`0` (warnings only). -/
def mainExitCode (vs : List PatternViolation) : Nat :=
  if blockingCount vs = 0 ∧ advisoryCount vs = 0 then 0
  else if 0 < blockingCount vs then 1 else 0

/-- Observable outcome of one run of the script. -/
structure RunResult where
  exitCode : Nat
  violations : List PatternViolation
  reportWritten : Bool
  enumerationRan : Bool
deriving DecidableEq, Repr

/-- The `main` function of the script.  `root` is the directory at the
configured registry path (`none` when `existsSync` fails, in which case
`main` exits `1` at once, before any enumeration, validation, or report
writing).  `shouldFix` (`--fix`) is parsed but never used; `genReport`
(`--report`) triggers the report file write. -/
def main (root : Option FsDir) (_shouldFix genReport : Bool) : RunResult :=
  match root with
  | none => { exitCode := 1, violations := [], reportWritten := false,
              enumerationRan := false }
  | some tree =>
    { exitCode := mainExitCode (runValidator (findComponentFiles tree)),
      violations := runValidator (findComponentFiles tree),
      reportWritten := genReport,
      enumerationRan := true }

/-- Spec-side description of per-file validation (§4.3 of the spec): for
each rule of the table, in table order, one violation exactly when the
rule's predicate returns false; files without the export marker yield
nothing.  Stated with `filterMap` rather than the script's push loop. -/
def specValidateFile (fileName content : String) : List PatternViolation :=
  if strContains content "export" then
    PATTERN_CHECKS.filterMap fun rule =>
      if rule.check content fileName then none
      else some { file := fileName, component := replaceFirst fileName ".tsx",
                  pattern := rule.name, message := rule.description,
                  severity := rule.severity }
  else []

/-- Spec-side description of a whole run: the concatenation, in
file-then-rule order, of the per-file violation lists. -/
def specRunViolations (files : List (String × String)) : List PatternViolation :=
  files.flatMap fun fc => specValidateFile fc.1 fc.2

/-- The spec's words for the component name: the file's base name with the
`.tsx` extension stripped (removed from the end when present). -/
def stripExtensionSpec (s : String) : String :=
  if strEndsWith s ".tsx" then String.mk (s.data.take (s.data.length - 4)) else s

end ValidatePatterns

namespace Springs

/-- One Framer Motion spring configuration.  The numeric literals of
`springs.ts` are modelled as exact rationals; no arithmetic is ever
performed on them, they are only stored and copied. -/
structure SpringConfig where
  stiffness : ℚ
  damping : ℚ
  mass : ℚ
deriving DecidableEq, Repr

/-- The six keys of the `SPRINGS` table. -/
inductive SpringName where
  | land | drag | ripple | magnetism | cluster | growth
deriving DecidableEq, Repr

/-- The `SPRINGS` constant of `springs.ts`. -/
def SPRINGS : SpringName → SpringConfig
  | .land => { stiffness := 400, damping := 28, mass := (8 : ℚ) / 10 }
  | .drag => { stiffness := 340, damping := 26, mass := (9 : ℚ) / 10 }
  | .ripple => { stiffness := 450, damping := 45, mass := (7 : ℚ) / 10 }
  | .magnetism => { stiffness := 450, damping := 50, mass := (8 : ℚ) / 10 }
  | .cluster => { stiffness := 340, damping := 38, mass := (14 : ℚ) / 10 }
  | .growth => { stiffness := 360, damping := 42, mass := (11 : ℚ) / 10 }

/-- `getSpring(name)`: look the configuration up in `SPRINGS`. -/
def getSpring (name : SpringName) : SpringConfig :=
  SPRINGS name

/-- The `Partial<{stiffness, damping, mass}>` overrides record:
each field is either absent (`none`) or present with a value. -/
structure SpringOverrides where
  stiffness : Option ℚ
  damping : Option ℚ
  mass : Option ℚ
deriving DecidableEq, Repr

/-- `createCustomSpring(base, overrides) = { ...SPRINGS[base], ...overrides }`:
object spread, so a field present in `overrides` wins and an absent field
keeps the base value. -/
def createCustomSpring (base : SpringName) (overrides : SpringOverrides) :
    SpringConfig :=
  { stiffness := overrides.stiffness.getD (SPRINGS base).stiffness,
    damping := overrides.damping.getD (SPRINGS base).damping,
    mass := overrides.mass.getD (SPRINGS base).mass }

end Springs

namespace ValidatePatterns

lemma runChecks_eq_filterMap (content fileName comp : String)
    (checks : List PatternCheck) :
    runChecks content fileName comp checks =
      checks.filterMap fun rule =>
        if rule.check content fileName then none
        else some { file := fileName, component := comp, pattern := rule.name,
                    message := rule.description, severity := rule.severity } := by
  induction checks with
  | nil => rfl
  | cons c rest ih =>
    simp only [runChecks, List.filterMap_cons]
    cases h : c.check content fileName <;> simp [h, ih]

lemma validateFile_eq_spec (fileName content : String) :
    validateFile fileName content = specValidateFile fileName content := by
  simp only [validateFile, specValidateFile]
  cases h : strContains content "export" <;>
    simp [h, runChecks_eq_filterMap]

lemma foldl_append_validate (files : List (String × String))
    (init : List PatternViolation) :
    files.foldl (fun acc fc => acc ++ validateFile fc.1 fc.2) init =
      init ++ files.flatMap fun fc => validateFile fc.1 fc.2 := by
  induction files generalizing init with
  | nil => simp
  | cons f rest ih => simp [List.foldl, ih]

lemma runValidator_eq_spec (files : List (String × String)) :
    runValidator files = specRunViolations files := by
  simp only [runValidator, foldl_append_validate, List.nil_append,
    specRunViolations]
  simp only [validateFile_eq_spec]

lemma findFilesInEntries_append (xs ys : Fs) :
    findFilesInEntries (xs.append ys) =
      findFilesInEntries xs ++ findFilesInEntries ys := by
  induction xs with
  | nilFs => simp [Fs.append, findFilesInEntries]
  | fileE n c rest ih => simp [Fs.append, findFilesInEntries, ih]
  | dirE n r ch rest ih1 ih2 => simp [Fs.append, findFilesInEntries, ih2]

/-- C1: for every run, the exit code is non-zero exactly when at least one
blocking (severity error) violation was collected or the configured root
does not exist; advisory-only runs and clean runs exit 0. -/
theorem c1_exit_code_iff (root : Option FsDir) (fix rep : Bool) :
    (main root fix rep).exitCode ≠ 0 ↔
      (0 < blockingCount (main root fix rep).violations ∨ root = none) := by
  cases root with
  | none => simp [main, blockingCount]
  | some t =>
    simp only [main, mainExitCode]
    split_ifs with h1 h2 <;> simp_all

/-- C3: a file whose text lacks the substring `"export"` yields no
violations at all, independent of its name and remaining content. -/
theorem c3_soft_skip (fileName content : String)
    (h : strContains content "export" = false) :
    validateFile fileName content = [] := by
  simp [validateFile, h]

/-- Witness for C3 at a concrete input. -/
theorem c3_soft_skip_witness :
    strContains "hello world" "export" = false ∧
    validateFile "slider.tsx" "hello world" = [] :=
  ⟨by decide, c3_soft_skip "slider.tsx" "hello world" (by decide)⟩

/-- C4 counterexample: the missing-root exit code is `1`, which is the
same code, not a distinct one, as the exit code of a run with blocking
violations (here a one-file tree with three error violations). -/
theorem c4_counterexample :
    (main none false false).exitCode = 1 ∧
    (main (some ⟨true, .fileE "button.tsx" "export function" .nilFs⟩)
        false false).exitCode = 1 ∧
    (main none false false).exitCode =
      (main (some ⟨true, .fileE "button.tsx" "export function" .nilFs⟩)
        false false).exitCode := by
  refine ⟨rfl, by decide, by decide⟩

/-- C4 amended: when the configured root cannot be located the script
exits immediately with failure code 1 (the same code as a validation
failure, not a distinct one), with no violations collected, no report
written, and no file enumeration run. -/
theorem c4_amended (fix rep : Bool) :
    main none fix rep =
      { exitCode := 1, violations := [], reportWritten := false,
        enumerationRan := false } := rfl

/-- C9: validation is deterministic — the violation sequence (and the
exit code) of a run is a function of the file tree alone; the run-time
flags (`--fix`, `--report`) and repetition do not change it. -/
theorem c9_deterministic (root : Option FsDir)
    (fix1 rep1 fix2 rep2 : Bool) :
    (main root fix1 rep1).violations = (main root fix2 rep2).violations ∧
    (main root fix1 rep1).exitCode = (main root fix2 rep2).exitCode := by
  cases root <;> exact ⟨rfl, rfl⟩

/-- C7: the rule table holds exactly five rules — three blocking and two
advisory — and every violation any input can ever produce carries the name
and the fixed severity of some table rule. -/
theorem c7_rule_table :
    PATTERN_CHECKS.length = 5 ∧
    (PATTERN_CHECKS.filter fun c => c.severity == Severity.error).length = 3 ∧
    (PATTERN_CHECKS.filter fun c => c.severity == Severity.warning).length = 2 ∧
    ∀ fileName content v, v ∈ validateFile fileName content →
      (v.pattern, v.severity) ∈ PATTERN_CHECKS.map fun r => (r.name, r.severity) := by
  refine ⟨rfl, rfl, rfl, ?_⟩
  intro fileName content v hv
  rw [validateFile_eq_spec] at hv
  simp only [specValidateFile] at hv
  by_cases hx : strContains content "export" = true
  · rw [if_pos hx, List.mem_filterMap] at hv
    obtain ⟨rule, hrule, heq⟩ := hv
    by_cases hc : rule.check content fileName = true
    · rw [if_pos hc] at heq
      exact absurd heq (by simp)
    · rw [if_neg hc] at heq
      obtain rfl := Option.some_inj.mp heq
      exact List.mem_map.mpr ⟨rule, hrule, rfl⟩
  · rw [if_neg hx] at hv
    simp at hv

/-- Witness for C7 at a concrete violation of a concrete run. -/
theorem c7_rule_table_witness :
    ({ file := "card.tsx", component := "card", pattern := "typescript-types",
       message := "Components should have proper TypeScript types",
       severity := Severity.error } : PatternViolation)
      ∈ validateFile "card.tsx" "export function" ∧
    ("typescript-types", Severity.error)
      ∈ PATTERN_CHECKS.map fun r => (r.name, r.severity) :=
  ⟨by decide,
   c7_rule_table.2.2.2 "card.tsx" "export function"
     { file := "card.tsx", component := "card", pattern := "typescript-types",
       message := "Components should have proper TypeScript types",
       severity := Severity.error } (by decide)⟩

/-- C2 counterexample: the file text `"export function"` satisfies every
hypothesis of the claim (contains `"export"`, no `"data-slot="`, no
`"focus-visible:ring"`), yet `button.tsx` yields three blocking
violations, not exactly two — the `typescript-types` rule is also
blocking and also fails. -/
theorem c2_counterexample :
    strContains "export function" "export" = true ∧
    strContains "export function" "data-slot=" = false ∧
    strContains "export function" "focus-visible:ring" = false ∧
    blockingCount (validateFile "button.tsx" "export function") = 3 ∧
    (validateFile "button.tsx" "export function").map (fun v => v.pattern) =
      ["data-slot", "focus-visible-ring", "typescript-types"] := by decide

/-- C2 amended: a `button.tsx` whose text contains `"export"`, no
`"data-slot="`, no `"focus-visible:ring"` and no
`"focus-visible:border-ring"`, and which passes the `typescript-types`
rule (no function/arrow marker, or a `Props` interface/type present),
yields exactly the two blocking violations `data-slot` and
`focus-visible-ring` (advisory ones may also occur), and the run over a
directory holding that file exits with code 1. -/
theorem c2_amended (content : String) (fix rep : Bool)
    (h1 : strContains content "export" = true)
    (h2 : strContains content "data-slot=" = false)
    (h3 : strContains content "focus-visible:ring" = false)
    (h4 : strContains content "focus-visible:border-ring" = false)
    (h5 : hasFunctionMarker content = false ∨ hasPropsType content = true) :
    (validateFile "button.tsx" content).filter
        (fun v => v.severity == Severity.error) =
      [{ file := "button.tsx", component := "button", pattern := "data-slot",
         message := "All components should have data-slot attribute",
         severity := .error },
       { file := "button.tsx", component := "button",
         pattern := "focus-visible-ring",
         message := "Interactive elements should have focus-visible rings",
         severity := .error }] ∧
    (main (some ⟨true, .fileE "button.tsx" content .nilFs⟩) fix rep).exitCode
      = 1 := by
  have hint : isInteractiveFile "button.tsx" = true := by decide
  have hform : isFormElementFile "button.tsx" = false := by decide
  have hext : strEndsWith "button.tsx" ".tsx" = true := by decide
  have hcomp : replaceFirst "button.tsx" ".tsx" = "button" := by decide
  have hds : dataSlotCheck content "button.tsx" = false := by
    simp [dataSlotCheck, h1, hint, h2]
  have hfv : focusVisibleRingCheck content "button.tsx" = false := by
    simp [focusVisibleRingCheck, hint, h3, h4]
  have haria : ariaInvalidCheck content "button.tsx" = true := by
    simp [ariaInvalidCheck, hform]
  have hts : typescriptTypesCheck content "button.tsx" = true := by
    rcases h5 with h5 | h5 <;> simp [typescriptTypesCheck, hext, h5]
  have hvf : validateFile "button.tsx" content =
      [{ file := "button.tsx", component := "button", pattern := "data-slot",
         message := "All components should have data-slot attribute",
         severity := .error },
       { file := "button.tsx", component := "button",
         pattern := "focus-visible-ring",
         message := "Interactive elements should have focus-visible rings",
         severity := .error }] ++
      (if cvaUsageCheck content "button.tsx" then []
       else [{ file := "button.tsx", component := "button",
               pattern := "cva-usage",
               message := "Components with variants should use CVA",
               severity := .warning }]) := by
    simp only [validateFile, h1, Bool.not_true, Bool.false_eq_true, if_false,
      PATTERN_CHECKS, runChecks, hds, hfv, haria, hts, hcomp]
    cases hc : cvaUsageCheck content "button.tsx" <;> simp [hc]
  have hfind : findComponentFiles ⟨true, .fileE "button.tsx" content .nilFs⟩ =
      [("button.tsx", content)] := by
    simp [findComponentFiles, findFilesInEntries, hext]
  constructor
  · rw [hvf]
    cases hc : cvaUsageCheck content "button.tsx" <;> simp [hc] <;> decide
  · simp only [main, hfind, runValidator, List.foldl, List.nil_append]
    rw [hvf]
    cases hc : cvaUsageCheck content "button.tsx" <;> simp [hc] <;> decide

/-- Witness for C2 amended at a concrete input. -/
theorem c2_amended_witness :
    strContains "export" "export" = true ∧
    strContains "export" "data-slot=" = false ∧
    strContains "export" "focus-visible:ring" = false ∧
    strContains "export" "focus-visible:border-ring" = false ∧
    hasFunctionMarker "export" = false ∧
    ((validateFile "button.tsx" "export").filter
        (fun v => v.severity == Severity.error) =
      [{ file := "button.tsx", component := "button", pattern := "data-slot",
         message := "All components should have data-slot attribute",
         severity := .error },
       { file := "button.tsx", component := "button",
         pattern := "focus-visible-ring",
         message := "Interactive elements should have focus-visible rings",
         severity := .error }] ∧
     (main (some ⟨true, .fileE "button.tsx" "export" .nilFs⟩) false false).exitCode
       = 1) :=
  ⟨by decide, by decide, by decide, by decide, by decide,
   c2_amended "export" false false (by decide) (by decide) (by decide)
     (by decide) (Or.inl (by decide))⟩

/-- C5: a `card.tsx` (matching no interactive-element or form-element
name) whose text contains `"export"`, has a function or arrow-function
marker, no `Props` interface/type, and no variant-like prop names, yields
exactly one violation — the blocking `typescript-types` one — while the
interactive-only and form-only rules return true. -/
theorem c5_card_scenario (content : String)
    (h1 : strContains content "export" = true)
    (h2 : hasFunctionMarker content = true)
    (h3 : hasPropsType content = false)
    (h4 : hasVariantProps content = false) :
    validateFile "card.tsx" content =
      [{ file := "card.tsx", component := "card",
         pattern := "typescript-types",
         message := "Components should have proper TypeScript types",
         severity := .error }] ∧
    dataSlotCheck content "card.tsx" = true ∧
    focusVisibleRingCheck content "card.tsx" = true ∧
    ariaInvalidCheck content "card.tsx" = true := by
  have hint : isInteractiveFile "card.tsx" = false := by decide
  have hform : isFormElementFile "card.tsx" = false := by decide
  have hext : strEndsWith "card.tsx" ".tsx" = true := by decide
  have hcomp : replaceFirst "card.tsx" ".tsx" = "card" := by decide
  have hds : dataSlotCheck content "card.tsx" = true := by
    simp [dataSlotCheck, hint]
  have hfv : focusVisibleRingCheck content "card.tsx" = true := by
    simp [focusVisibleRingCheck, hint]
  have haria : ariaInvalidCheck content "card.tsx" = true := by
    simp [ariaInvalidCheck, hform]
  have hcva : cvaUsageCheck content "card.tsx" = true := by
    simp [cvaUsageCheck, h4]
  have hts : typescriptTypesCheck content "card.tsx" = false := by
    simp [typescriptTypesCheck, hext, h2, h3]
  refine ⟨?_, hds, hfv, haria⟩
  simp only [validateFile, h1, Bool.not_true, Bool.false_eq_true, if_false,
    PATTERN_CHECKS, runChecks, hds, hfv, haria, hcva, hts, hcomp]
  simp

/-- Witness for C5 at a concrete input. -/
theorem c5_card_scenario_witness :
    strContains "export function" "export" = true ∧
    hasFunctionMarker "export function" = true ∧
    hasPropsType "export function" = false ∧
    hasVariantProps "export function" = false ∧
    (validateFile "card.tsx" "export function" =
      [{ file := "card.tsx", component := "card",
         pattern := "typescript-types",
         message := "Components should have proper TypeScript types",
         severity := .error }] ∧
     dataSlotCheck "export function" "card.tsx" = true ∧
     focusVisibleRingCheck "export function" "card.tsx" = true ∧
     ariaInvalidCheck "export function" "card.tsx" = true) :=
  ⟨by decide, by decide, by decide, by decide,
   c5_card_scenario "export function" (by decide) (by decide) (by decide)
     (by decide)⟩

/-- C6 counterexample: the discoverable file name `a.tsxb.tsx` (it ends
in `.tsx`) yields a violation whose component name is `ab.tsx` — the
FIRST occurrence of `.tsx` is removed — while the base name with the
extension stripped would be `a.tsxb`. -/
theorem c6_counterexample :
    strEndsWith "a.tsxb.tsx" ".tsx" = true ∧
    (validateFile "a.tsxb.tsx" "export function").map (fun v => v.component)
      = ["ab.tsx"] ∧
    stripExtensionSpec "a.tsxb.tsx" = "a.tsxb" ∧
    ("ab.tsx" : String) ≠ "a.tsxb" := by decide

/-- C6 amended: a run's violation sequence is the concatenation, in
file-then-rule order (files in traversal order, rules in table order), of
one violation per failing rule, each carrying the rule's name, message
and severity, and — as component name — the file's base name with the
first occurrence of `.tsx` removed (which equals the extension-stripped
name whenever `.tsx` occurs only as the extension); no deduplication. -/
theorem c6_amended (tree : FsDir) (fix rep : Bool) :
    (main (some tree) fix rep).violations =
      specRunViolations (findComponentFiles tree) := by
  simp only [main]
  exact runValidator_eq_spec _

/-- C8: an unreadable directory contributes an empty file list, and an
unreadable subdirectory anywhere among a directory's entries removes only
that subtree's contribution — the files of every readable sibling, before
and after it, are still returned. -/
theorem c8_unreadable_subtree (name : String) (es pre post : Fs) :
    findComponentFiles ⟨false, es⟩ = [] ∧
    findFilesInEntries (pre.append (Fs.dirE name false es post)) =
      findFilesInEntries pre ++ findFilesInEntries post := by
  constructor
  · simp [findComponentFiles]
  · rw [findFilesInEntries_append]
    simp [findFilesInEntries]

end ValidatePatterns

namespace Springs

/-- C10: `getSpring` returns exactly the `SPRINGS` entry, and
`createCustomSpring` keeps every base field not overridden while every
field present in the overrides record takes the override's value — stated
for all eight presence patterns of the overrides record, with the
overriding values universally quantified; in particular an empty
overrides record reproduces `SPRINGS[base]`. -/
theorem c10_spring_lookup_override (b : SpringName) (s d m : ℚ) :
    getSpring b = SPRINGS b ∧
    createCustomSpring b ⟨none, none, none⟩ = SPRINGS b ∧
    createCustomSpring b ⟨some s, none, none⟩ =
      ⟨s, (SPRINGS b).damping, (SPRINGS b).mass⟩ ∧
    createCustomSpring b ⟨none, some d, none⟩ =
      ⟨(SPRINGS b).stiffness, d, (SPRINGS b).mass⟩ ∧
    createCustomSpring b ⟨none, none, some m⟩ =
      ⟨(SPRINGS b).stiffness, (SPRINGS b).damping, m⟩ ∧
    createCustomSpring b ⟨some s, some d, none⟩ =
      ⟨s, d, (SPRINGS b).mass⟩ ∧
    createCustomSpring b ⟨some s, none, some m⟩ =
      ⟨s, (SPRINGS b).damping, m⟩ ∧
    createCustomSpring b ⟨none, some d, some m⟩ =
      ⟨(SPRINGS b).stiffness, d, m⟩ ∧
    createCustomSpring b ⟨some s, some d, some m⟩ = ⟨s, d, m⟩ :=
  ⟨rfl, rfl, rfl, rfl, rfl, rfl, rfl, rfl, rfl⟩

end Springs
